import Mathlib

/-!
Verification of the audit/decision engine of the Clear-Bill backend
(`backend/audit_service.py`).

The Python functions `perform_audit`, `validate_against_policies` and
`extract_invoice_data` are shallowly embedded below.  Python values that flow
through the engine (the result of `json.loads`, values stored in item dicts,
extracted-field dicts) are modelled by the inductive type `Json`; Python
exceptions are modelled by `Except String`; Python `float` is modelled by `ℚ`
(non-finite float literals such as "inf"/"nan" and underscore digit
separators are outside this rational model, and the exact decimal rendering
of floats inside human-readable message strings is abstracted).
The external regular-expression library (`re`) is modelled by an oracle
function passed as an explicit argument.
-/

namespace ClearBill

/-- A parsed JSON value: the possible results of Python `json.loads`. -/
inductive Json where
  | null
  | bool (b : Bool)
  | num (q : ℚ)
  | str (s : String)
  | arr (elems : List Json)
  | obj (fields : List (String × Json))

/-- Python `dict.get(k)` over a key/value list built left to right
(later bindings overwrite earlier ones, as in a Python dict). -/
def dictGet (kvs : List (String × Json)) (k : String) : Option Json :=
  kvs.foldl (fun acc p => if p.1 = k then some p.2 else acc) none

/-- Python truthiness of a value (`bool(x)`). -/
def pyTruthy : Json → Bool
  | .null => false
  | .bool b => b
  | .num q => q ≠ 0
  | .str s => s ≠ ""
  | .arr xs => ¬ xs.isEmpty
  | .obj kvs => ¬ kvs.isEmpty

/-- Whether the character list `pre` is a prefix of `l`. -/
def charsPrefix : List Char → List Char → Bool
  | [], _ => true
  | _ :: _, [] => false
  | a :: as_, b :: bs => a = b && charsPrefix as_ bs

/-- Whether `needle` occurs as a contiguous sublist of `hay`. -/
def charsContains : List Char → List Char → Bool
  | [], needle => needle.isEmpty
  | h :: t, needle => charsPrefix needle (h :: t) || charsContains t needle

/-- Python substring test `sub in s`. -/
def strContains (s sub : String) : Bool :=
  charsContains s.data sub.data

/-- Python `str.lower()` (ASCII case folding, which covers every keyword the
engine compares against). -/
def pyLower (s : String) : String := String.mk (s.data.map Char.toLower)

/-- Python `str.strip()`: drop leading and trailing whitespace. -/
def pyStrip (s : String) : String :=
  String.mk (((s.data.dropWhile Char.isWhitespace).reverse.dropWhile Char.isWhitespace).reverse)

/-- The natural number denoted by a list of decimal digit characters. -/
def digitsToNat (ds : List Char) : Nat :=
  ds.foldl (fun acc c => acc * 10 + (c.toNat - 48)) 0

/-- Parse the mantissa part of a decimal literal: `digits [. digits]` or
`. digits`; returns its value and the unconsumed rest. -/
def parseMantissa (cs : List Char) : Option (ℚ × List Char) :=
  let sp := cs.span Char.isDigit
  let ipart := sp.1
  match sp.2 with
  | '.' :: rest2 =>
    let sp2 := rest2.span Char.isDigit
    let fpart := sp2.1
    if ipart.isEmpty && fpart.isEmpty then none
    else some ((digitsToNat ipart : ℚ) + (digitsToNat fpart : ℚ) / (10 ^ fpart.length), sp2.2)
  | rest => if ipart.isEmpty then none else some ((digitsToNat ipart : ℚ), rest)

/-- Parse the exponent suffix of a decimal literal (empty, or `e`/`E`
followed by an optionally signed digit string consuming the whole rest). -/
def parseExpPart : List Char → Option ℤ
  | [] => some 0
  | c :: rest =>
    if c = 'e' || c = 'E' then
      let sgnRest : ℤ × List Char :=
        match rest with
        | '+' :: r => (1, r)
        | '-' :: r => (-1, r)
        | r => (1, r)
      let sp := sgnRest.2.span Char.isDigit
      if sp.1.isEmpty || ¬ sp.2.isEmpty then none
      else some (sgnRest.1 * (digitsToNat sp.1 : ℤ))
    else none

/-- Python `float(s)` on a string: strip surrounding whitespace, then an
optionally signed finite decimal literal with optional exponent; `none`
models the `ValueError` raised otherwise. -/
def pyFloatOfString (s : String) : Option ℚ :=
  let cs := (pyStrip s).data
  let sgnCs : ℚ × List Char :=
    match cs with
    | '+' :: r => (1, r)
    | '-' :: r => (-1, r)
    | r => (1, r)
  match parseMantissa sgnCs.2 with
  | none => none
  | some mc =>
    match parseExpPart mc.2 with
    | none => none
    | some e => some (sgnCs.1 * mc.1 * (10 : ℚ) ^ e)

/-- Python `float(x)` on an arbitrary value; `.error` models the
`ValueError`/`TypeError` raised on non-numeric input. -/
def pyFloat : Json → Except String ℚ
  | .num q => .ok q
  | .bool b => .ok (if b then 1 else 0)
  | .str s =>
    match pyFloatOfString s with
    | some q => .ok q
    | none => .error ("ValueError: could not convert string to float: " ++ s)
  | .null => .error "TypeError: float() argument must be a string or a real number, not NoneType"
  | .arr _ => .error "TypeError: float() argument must be a string or a real number, not list"
  | .obj _ => .error "TypeError: float() argument must be a string or a real number, not dict"

/-- Python `int(s)` success test on an optional string (used for
`int(policy.expected_value)`): `none` models the `ValueError`/`TypeError`. -/
def pyIntOfExpected : Option String → Option ℤ
  | none => none
  | some s =>
    let cs := (pyStrip s).data
    let sgnCs : ℤ × List Char :=
      match cs with
      | '+' :: r => (1, r)
      | '-' :: r => (-1, r)
      | r => (1, r)
    if sgnCs.2.isEmpty || ¬ (sgnCs.2.all Char.isDigit) then none
    else some (sgnCs.1 * (digitsToNat sgnCs.2 : ℤ))

/-- Rendering of a Python value into message text (`str(x)` / f-strings).
String values render as themselves; the decimal rendering of floats and the
rendering of containers are abstracted, since no verified property depends
on message contents. -/
def jsonText : Json → String
  | .null => "None"
  | .bool b => if b then "True" else "False"
  | .num q => toString q
  | .str s => s
  | .arr _ => "[...]"
  | .obj _ => "\x7b...\x7d"

/-- Python `s.replace('_', ' ')`. -/
def underscoresToSpaces (s : String) : String :=
  s.map (fun c => if c = '_' then ' ' else c)

/-- Python `str.title()`: the first letter of every alphabetic run is
uppercased, the rest lowercased (ASCII letters, which covers every field
name the engine formats). -/
def pyTitle (s : String) : String :=
  String.mk (s.data.foldl
    (fun (acc : List Char × Bool) c =>
      if c.isAlpha then
        (acc.1 ++ [if acc.2 then c.toLower else c.toUpper], true)
      else (acc.1 ++ [c], false))
    ([], false)).1

/-- Python `round(q, 2)` (round to two decimal places).  The tie-breaking of
Python's float rounding is abstracted as floor of `q*100 + 1/2`; every
property below uses the same function on both the code side and the claim
side, so no result depends on tie behaviour. -/
def round2 (q : ℚ) : ℚ := ((⌊q * 100 + 1/2⌋ : ℤ) : ℚ) / 100

/-- Modelled from the spec: the `AuditRule` ORM row of `models.py` (a file
not present in the repository snapshot), as described by spec §3
"CategoryRule": category key, spending cap, restricted flag, description. -/
structure AuditRule where
  category : String
  max_limit : ℚ
  is_restricted : Bool
  description : String := ""
deriving DecidableEq

/-- Modelled from the spec: the `AuditPolicy` ORM row of `models.py` (not
present in the repository snapshot), as described by spec §3 "FieldPolicy".
Per spec §9, the dynamic `getattr(policy, 'severity', default)` access is
modelled as an explicit optional field resolved at read time. -/
structure AuditPolicy where
  rule_name : String
  rule_type : String
  field_name : String
  condition : String
  expected_value : Option String := none
  severity : Option String := none
  is_active : Bool := true
deriving DecidableEq

/-- `getattr(policy, 'severity', dflt)`. -/
def policySeverity (p : AuditPolicy) (dflt : String) : String :=
  p.severity.getD dflt

/-- One violation record (the dicts appended to the `violations` list). -/
structure Violation where
  rule_name : String
  field_name : String
  violation_type : String
  severity : String
  message : String
  flagged_items : Option (List Json) := none

/-- Modelled from the spec: the `AuditResult` schema of `schemas.py` (not
present in the repository snapshot), as described by spec §3:
`approval_status` and `status_color` are optional and unset unless a path
passes them explicitly. -/
structure AuditResult where
  is_compliant : Bool
  total_violations : Nat
  violations : List Violation
  compliance_score : ℚ
  summary : String
  approval_status : Option String := none
  status_color : Option String := none

/-- `rules_dict = {rule.category: rule for rule in audit_rules}` followed by
`rules_dict.get(c)`: the last rule with a given category wins. -/
def rulesGet (rules : List AuditRule) (c : String) : Option AuditRule :=
  rules.foldl (fun acc r => if r.category = c then some r else acc) none

/-- `rule = rules_dict.get(category)` followed by the `Others` fallback
(`if not rule: rule = rules_dict.get('Others')`).  The raw category value is
an arbitrary JSON value: a non-string hashable value is simply absent from
the string-keyed dict, while an unhashable value (list/dict) makes
`dict.get` raise `TypeError`. -/
def resolveRule (rules : List AuditRule) (cat : Json) : Except String (Option AuditRule) :=
  match cat with
  | .str c =>
    .ok (match rulesGet rules c with
         | some r => some r
         | none => rulesGet rules "Others")
  | .arr _ => .error "TypeError: unhashable type: list"
  | .obj _ => .error "TypeError: unhashable type: dict"
  | _ => .ok (rulesGet rules "Others")

/-- What one iteration of the item loop appends to the `violations`,
`restricted_items` and `amount_violations` accumulators. -/
structure ItemStep where
  violations : List Violation
  restricted_names : List Json
  exceeded_names : List Json

/-- One iteration of the item loop of `perform_audit` (audit_service.py
lines 397-429): read `name`/`category`/`amount` with their defaults, coerce
the amount with `float`, resolve the category rule with the `Others`
fallback, then emit at most one violation (`restricted_item` taking
precedence over the amount check via `elif`).  `.error` models an exception
raised inside the loop (unparsable amount, unhashable category, or a
non-dict item for which `.get` raises `AttributeError`). -/
def checkItem (rules : List AuditRule) (item : Json) : Except String ItemStep :=
  match item with
  | .obj kvs =>
    let name := (dictGet kvs "name").getD (.str "")
    let cat := (dictGet kvs "category").getD (.str "Others")
    match pyFloat ((dictGet kvs "amount").getD (.num 0)) with
    | .error e => .error e
    | .ok amount =>
      match resolveRule rules cat with
      | .error e => .error e
      | .ok none => .ok ⟨[], [], []⟩
      | .ok (some rule) =>
        if rule.is_restricted then
          .ok ⟨[{ rule_name := jsonText cat ++ " - Restricted Category"
                  field_name := "category"
                  violation_type := "restricted_item"
                  severity := "high"
                  message := jsonText name ++ " (" ++ jsonText cat ++ ") is strictly prohibited"
                  flagged_items := some [name] }], [name], []⟩
        else if rule.max_limit < amount then
          .ok ⟨[{ rule_name := jsonText cat ++ " - Amount Limit Exceeded"
                  field_name := "amount"
                  violation_type := "amount_exceeded"
                  severity := "medium"
                  message := jsonText name ++ " amount Rs." ++ toString amount ++
                    " exceeds " ++ jsonText cat ++ " limit of Rs." ++ toString rule.max_limit
                  flagged_items := some [name] }], [], [name]⟩
        else .ok ⟨[], [], []⟩
  | _ => .error "AttributeError: object has no attribute get"

/-- Run a fallible step over each list element in order, stopping at the
first failure (the behaviour of a Python `for` loop whose body may raise). -/
def mapME (f : Json → Except String ItemStep) : List Json → Except String (List ItemStep)
  | [] => .ok []
  | x :: xs =>
    match f x with
    | .error e => .error e
    | .ok o =>
      match mapME f xs with
      | .error e => .error e
      | .ok os => .ok (o :: os)

/-- `invoice_data.get('items', [])` followed by iterating the result.
A non-dict top-level value makes `.get` raise; a non-iterable `items` value
raises `TypeError`; iterating a non-empty string or dict yields non-dict
elements whose `.get` raises on the first iteration, while empty ones
behave like an empty item list. -/
def getItems (jd : Json) : Except String (List Json) :=
  match jd with
  | .obj kvs =>
    match dictGet kvs "items" with
    | none => .ok []
    | some (.arr xs) => .ok xs
    | some (.str s) =>
      if s.data.isEmpty then .ok [] else .error "AttributeError: str object has no attribute get"
    | some (.obj kvs2) =>
      if kvs2.isEmpty then .ok [] else .error "AttributeError: str object has no attribute get"
    | some _ => .error "TypeError: object is not iterable"
  | _ => .error "AttributeError: object has no attribute get"

/-- Assemble the structured-path `AuditResult` from the per-item steps
(audit_service.py lines 431-464): the precedence decision on the two
tallies, the summary text, and the result record. -/
def buildStructuredResult (steps : List ItemStep) : AuditResult :=
  let violations := steps.flatMap ItemStep.violations
  let restricted_items := steps.flatMap ItemStep.restricted_names
  let amount_violations := steps.flatMap ItemStep.exceeded_names
  let asc : String × String × ℚ :=
    if 0 < restricted_items.length then ("rejected", "red", 0)
    else if 0 < amount_violations.length then ("warning", "yellow", 50)
    else ("approved", "green", 100)
  let summary :=
    if violations.isEmpty then "All items approved - No policy violations found"
    else if 0 < restricted_items.length then
      "Cannot approve - " ++ toString restricted_items.length ++ " restricted items found"
    else
      "Warning - " ++ toString amount_violations.length ++ " items exceed category limits"
  { is_compliant := asc.1 == "approved"
    total_violations := violations.length
    violations := violations
    compliance_score := asc.2.2
    summary := summary
    approval_status := some asc.1
    status_color := some asc.2.1 }

/-- The structured (valid-JSON) audit path of `perform_audit`
(audit_service.py lines 384-464).  `.error` models any exception raised
inside the `try` block, which the caller turns into the degraded
processing-error result. -/
def auditStructured (jd : Json) (rules : List AuditRule) : Except String AuditResult :=
  match getItems jd with
  | .error e => .error e
  | .ok items =>
    match mapME (checkItem rules) items with
    | .error e => .error e
    | .ok steps => .ok (buildStructuredResult steps)

/-- The fixed invoice-indicator keyword list of the fallback path
(audit_service.py line 471). -/
def invoice_keywords : List String :=
  ["invoice", "bill", "receipt", "total", "amount", "price", "cost", "payment"]

/-- The fixed alcohol keyword list of the fallback path
(audit_service.py line 487). -/
def alcohol_keywords : List String :=
  ["whiskey", "scotch", "beer", "wine", "vodka", "rum", "gin", "alcohol",
   "liquor", "champagne", "cocktail"]

/-- The keyword-scan fallback path of `perform_audit`, taken when
`structured_json` fails to parse (audit_service.py lines 466-517). -/
def fallbackAudit (groq_response : String) : AuditResult :=
  let content := pyLower groq_response
  let has_invoice_format := invoice_keywords.any (fun kw => strContains content kw)
  if ¬ has_invoice_format then
    { is_compliant := true
      total_violations := 0
      violations := []
      compliance_score := 100
      summary := "Document processed - Not an invoice, no audit required"
      approval_status := some "approved"
      status_color := some "green" }
  else
    let found_alcohol := alcohol_keywords.filter (fun kw => strContains content kw)
    if 0 < found_alcohol.length then
      { is_compliant := false
        total_violations := 1
        violations := [{ rule_name := "Alcohol - Restricted Category"
                         field_name := "content"
                         violation_type := "restricted_item"
                         severity := "high"
                         message := "Document contains alcohol-related items: " ++
                           String.intercalate ", " found_alcohol
                         flagged_items := some (found_alcohol.map Json.str) }]
        compliance_score := 0
        summary := "Cannot approve - Alcohol items detected"
        approval_status := some "rejected"
        status_color := some "red" }
    else
      { is_compliant := true
        total_violations := 0
        violations := []
        compliance_score := 100
        summary := "Document approved - No restricted items detected"
        approval_status := some "approved"
        status_color := some "green" }

/-- The degraded result produced by the generic `except Exception` handler
of `perform_audit` (audit_service.py lines 518-532). -/
def processingErrorResult (e : String) : AuditResult :=
  { is_compliant := false
    total_violations := 1
    violations := [{ rule_name := "Audit Processing Error"
                     field_name := "system"
                     violation_type := "processing_error"
                     severity := "high"
                     message := "Error processing audit: " ++ e }]
    compliance_score := 0
    summary := "Audit processing failed" }

/-- `perform_audit(groq_response, json_data, db)` (audit_service.py lines
378-532; the code from line 533 on sits after unconditional returns and is
unreachable).  `json_data` is the result of `json.loads`: `none` models a
`json.JSONDecodeError`, which selects the keyword fallback; any other
exception inside the `try` block is converted into the degraded
processing-error result.  The category rules read from the database
(`db.query(AuditRule).all()`) are passed in as a list. -/
def perform_audit (groq_response : String) (json_data : Option Json)
    (rules : List AuditRule) : AuditResult :=
  match json_data with
  | none => fallbackAudit groq_response
  | some jd =>
    match auditStructured jd rules with
    | .ok r => r
    | .error e => processingErrorResult e

/-- Evaluate one active policy against the extracted fields
(`validate_against_policies`, audit_service.py lines 269-355).  `reMatch`
models the external `re.match(pattern, string)` call (`.error` models an
exception raised by `re`, e.g. on an invalid pattern).  `.ok none` means no
violation, `.ok (some v)` a violation appended to the list, `.error` an
exception propagating out of the function.  The `content_warning /
contains_keywords` branch faithfully reproduces a defect of the source:
line 309 reads the name `groq_response`, which is not defined in the scope
of `validate_against_policies` (it is a parameter of *other* functions of
the module, and no module-level binding exists), so reaching that branch
raises `NameError` — or `AttributeError` one line earlier when
`expected_value` is `None`, since `None.split` is evaluated first. -/
def evalPolicy (reMatch : String → String → Except String Bool)
    (invoice_data : List (String × Json)) (p : AuditPolicy) :
    Except String (Option Violation) :=
  let field_value := dictGet invoice_data p.field_name
  let fieldTruthy := match field_value with
    | some v => pyTruthy v
    | none => false
  if p.rule_type == "required_field" then
    if p.condition == "exists" && !fieldTruthy then
      .ok (some { rule_name := p.rule_name
                  field_name := p.field_name
                  violation_type := "missing_field"
                  severity := policySeverity p "medium"
                  message := pyTitle (underscoresToSpaces p.field_name) ++
                    " is required but missing" })
    else .ok none
  else if p.rule_type == "amount_limit" && fieldTruthy then
    match field_value with
    | none => .ok none
    | some fv =>
      match pyFloat fv, (match p.expected_value with
                         | none => Except.error "TypeError"
                         | some s => match pyFloatOfString s with
                                     | some q => Except.ok q
                                     | none => Except.error "ValueError") with
      | .ok amount, .ok limit =>
        if p.condition == "max_value" && decide (limit < amount) then
          .ok (some { rule_name := p.rule_name
                      field_name := p.field_name
                      violation_type := "amount_exceeded"
                      severity := policySeverity p "medium"
                      message := "Amount $" ++ toString amount ++
                        " exceeds maximum limit of $" ++ toString limit })
        else if p.condition == "min_value" && decide (amount < limit) then
          .ok (some { rule_name := p.rule_name
                      field_name := p.field_name
                      violation_type := "amount_below_minimum"
                      severity := policySeverity p "medium"
                      message := "Amount $" ++ toString amount ++
                        " is below minimum limit of $" ++ toString limit })
        else .ok none
      | _, _ => .ok none
  else if p.rule_type == "content_warning" then
    if p.condition == "contains_keywords" then
      match p.expected_value with
      | none => .error "AttributeError: NoneType object has no attribute split"
      | some _ => .error "NameError: name groq_response is not defined"
    else .ok none
  else if p.rule_type == "format_check" && fieldTruthy then
    if p.condition == "format_match" then
      match field_value with
      | none => .ok none
      | some fv =>
        match p.expected_value with
        | none => .error "TypeError: first argument must be string or compiled pattern"
        | some pattern =>
          match reMatch pattern (jsonText fv) with
          | .error e => .error e
          | .ok true => .ok none
          | .ok false =>
            .ok (some { rule_name := p.rule_name
                        field_name := p.field_name
                        violation_type := "format_mismatch"
                        severity := policySeverity p "medium"
                        message := pyTitle (underscoresToSpaces p.field_name) ++
                          " format is invalid" })
    else .ok none
  else if p.rule_type == "date_range" && fieldTruthy then
    if p.condition == "within_days" then
      match pyIntOfExpected p.expected_value with
      | none => .ok none
      | some _ =>
        match field_value with
        | none => .ok none
        | some fv =>
          if strContains (pyLower (jsonText fv)) "old" ||
             strContains (pyLower (jsonText fv)) "expired" then
            .ok (some { rule_name := p.rule_name
                        field_name := p.field_name
                        violation_type := "date_out_of_range"
                        severity := policySeverity p "medium"
                        message := "Invoice date appears to be outside acceptable range" })
          else .ok none
    else .ok none
  else .ok none

/-- The policy loop of `validate_against_policies` (lines 265-355): skip
inactive policies, evaluate the rest in order, collect the violations in
evaluation order; an exception in any iteration aborts the whole call. -/
def runPolicies (reMatch : String → String → Except String Bool)
    (invoice_data : List (String × Json)) :
    List AuditPolicy → Except String (List Violation)
  | [] => .ok []
  | p :: rest =>
    if ¬ p.is_active then runPolicies reMatch invoice_data rest
    else
      match evalPolicy reMatch invoice_data p with
      | .error e => .error e
      | .ok none => runPolicies reMatch invoice_data rest
      | .ok (some v) =>
        match runPolicies reMatch invoice_data rest with
        | .error e => .error e
        | .ok vs => .ok (v :: vs)

/-- Scoring and result assembly of `validate_against_policies`
(lines 357-376). -/
def buildPolicyResult (total_rules : Nat) (violations : List Violation) : AuditResult :=
  let warnings := violations.filter (fun v => v.severity == "warning")
  let errors := violations.filter (fun v => v.severity == "medium" || v.severity == "high")
  let compliance_score : ℚ :=
    if 0 < total_rules then
      max 0 (((total_rules : ℚ) - (errors.length : ℚ)) / (total_rules : ℚ) * 100)
    else 100
  let summary :=
    if violations.length == 0 then "Invoice is fully compliant with all audit policies"
    else
      "Invoice has " ++ toString errors.length ++ " policy violations" ++
      (if 0 < warnings.length then ", " ++ toString warnings.length ++ " warnings" else "") ++
      " out of " ++ toString total_rules ++ " rules checked"
  { is_compliant := violations.length == 0
    total_violations := violations.length
    violations := violations
    compliance_score := round2 compliance_score
    summary := summary }

/-- `validate_against_policies(invoice_data, policies)` (audit_service.py
lines 259-376).  `.error` models an exception escaping the function (the
undefined-name defect of the `content_warning` branch, or an exception from
`re.match`). -/
def validate_against_policies (reMatch : String → String → Except String Bool)
    (invoice_data : List (String × Json)) (policies : List AuditPolicy) :
    Except String AuditResult :=
  match runPolicies reMatch invoice_data policies with
  | .error e => .error e
  | .ok violations =>
    .ok (buildPolicyResult (policies.filter (fun p => p.is_active)).length violations)

/-- The amount regex patterns of `extract_invoice_data`
(audit_service.py lines 203-207), kept as literal pattern strings. -/
def amount_patterns : List String :=
  ["(?:total|amount|sum)\\s*:?\\s*\\$?([0-9,]+\\.?[0-9]*)",
   "\\$([0-9,]+\\.?[0-9]*)",
   "([0-9,]+\\.?[0-9]*)\\s*(?:dollars?|usd|\\$)"]

/-- The invoice-number regex patterns (lines 190-194). -/
def invoice_patterns : List String :=
  ["invoice\\s*(?:number|#|no\\.?)\\s*:?\\s*([A-Z0-9-]+)",
   "inv\\s*(?:number|#|no\\.?)\\s*:?\\s*([A-Z0-9-]+)",
   "bill\\s*(?:number|#|no\\.?)\\s*:?\\s*([A-Z0-9-]+)"]

/-- The date regex patterns (lines 220-224). -/
def date_patterns : List String :=
  ["date\\s*:?\\s*([0-9]\x7b1,2\x7d[/-][0-9]\x7b1,2\x7d[/-][0-9]\x7b2,4\x7d)",
   "([0-9]\x7b1,2\x7d[/-][0-9]\x7b1,2\x7d[/-][0-9]\x7b2,4\x7d)",
   "([A-Za-z]+ [0-9]\x7b1,2\x7d,? [0-9]\x7b4\x7d)"]

/-- The vendor regex patterns (lines 233-237). -/
def vendor_patterns : List String :=
  ["(?:from|vendor|company|business)\\s*:?\\s*([A-Za-z\\s&.,]+?)(?:\\n|$|[0-9])",
   "bill\\s+from\\s+([A-Za-z\\s&.,]+?)(?:\\n|$|[0-9])",
   "invoice\\s+from\\s+([A-Za-z\\s&.,]+?)(?:\\n|$|[0-9])"]

/-- The business-indicator substrings of the vendor fallback (line 241). -/
def business_indicators : List String :=
  ["company", "corp", "inc", "ltd", "llc", "store", "shop", "restaurant",
   "cafe", "hotel", "market", "business", "enterprise", "services", "solutions"]

/-- Python `s.replace(',', '')`. -/
def stripCommas (s : String) : String :=
  String.mk (s.data.filter (fun c => c ≠ ','))

/-- Try each pattern in order and return the first match's capture group
(the `for pattern in ...: match = re.search(...); if match: ...; break`
shape used for invoice number and date).  `reSearch` models the external
`re.search` call: `reSearch pattern text` is the first capture group of the
leftmost match, or `none` when the pattern does not match. -/
def firstMatch (reSearch : String → String → Option String) (text : String) :
    List String → Option String
  | [] => none
  | p :: rest =>
    match reSearch p text with
    | some m => some m
    | none => firstMatch reSearch text rest

/-- The amount-extraction loop (lines 209-217): first pattern match whose
comma-stripped capture parses as a float wins; a capture that fails to
parse is discarded and the next pattern is tried. -/
def findAmount (reSearch : String → String → Option String) (text : String) :
    List String → Option ℚ
  | [] => none
  | p :: rest =>
    match reSearch p text with
    | none => findAmount reSearch text rest
    | some m =>
      match pyFloatOfString (stripCommas m) with
      | some q => some q
      | none => findAmount reSearch text rest

/-- The vendor-extraction loop (lines 244-250): a match whose stripped
capture has more than two characters wins; shorter captures let the loop
continue with the next pattern. -/
def findVendor (reSearch : String → String → Option String) (text : String) :
    List String → Option String
  | [] => none
  | p :: rest =>
    match reSearch p text with
    | none => findVendor reSearch text rest
    | some m =>
      let v := pyStrip m
      if 2 < v.length then some v else findVendor reSearch text rest

/-- `extract_invoice_data(groq_response)` (audit_service.py lines 183-257):
build the extracted-fields dict in insertion order; every key is optional. -/
def extract_invoice_data (reSearch : String → String → Option String)
    (text : String) : List (String × Json) :=
  let d1 : List (String × Json) :=
    match firstMatch reSearch text invoice_patterns with
    | some s => [("invoice_number", Json.str s)]
    | none => []
  let d2 :=
    match findAmount reSearch text amount_patterns with
    | some q => d1 ++ [("amount", Json.num q)]
    | none => d1
  let d3 :=
    match firstMatch reSearch text date_patterns with
    | some s => d2 ++ [("date", Json.str s)]
    | none => d2
  let vendor :=
    match findVendor reSearch text vendor_patterns with
    | some v => some v
    | none =>
      if business_indicators.any (fun kw => strContains (pyLower text) kw) then
        some "Business entity detected"
      else none
  match vendor with
  | some v => d3 ++ [("vendor_name", Json.str v)]
  | none => d3

/-- The default category rules seeded by `create_default_audit_rules`
(audit_service.py lines 12-21). -/
def default_rules : List AuditRule :=
  [{ category := "Food", max_limit := 1500, is_restricted := false
     description := "Per meal allowance for employees." },
   { category := "Travel", max_limit := 10000, is_restricted := false
     description := "Inter-city travel and hotel stays." },
   { category := "Utility", max_limit := 5000, is_restricted := false
     description := "Internet, electricity, and phone bills." },
   { category := "Office Supplies", max_limit := 3000, is_restricted := false
     description := "Stationery and small equipment." },
   { category := "Alcohol", max_limit := 0, is_restricted := true
     description := "Strictly prohibited for reimbursement." },
   { category := "Entertainment", max_limit := 0, is_restricted := true
     description := "Personal movies, spas, or leisure activities." },
   { category := "Jewelry", max_limit := 0, is_restricted := true
     description := "High-risk personal luxury items." },
   { category := "Others", max_limit := 1000, is_restricted := false
     description := "General catch-all category for small items." }]

/-- The default "Alcohol Content Warning" policy seeded by
`create_default_audit_policies` (audit_service.py lines 92-99). -/
def alcoholContentPolicy : AuditPolicy :=
  { rule_name := "Alcohol Content Warning"
    rule_type := "content_warning"
    field_name := "content"
    condition := "contains_keywords"
    expected_value := some ("alcohol,beer,wine,liquor,vodka,whiskey,rum,gin," ++
      "champagne,cocktail,bar,pub,brewery,distillery")
    severity := some "warning"
    is_active := true }

/-- The default "Amount Required" policy seeded by
`create_default_audit_policies` (audit_service.py lines 42-48, severity
defaulted to "medium" by lines 127-129). -/
def amountRequiredPolicy : AuditPolicy :=
  { rule_name := "Amount Required"
    rule_type := "required_field"
    field_name := "amount"
    condition := "exists"
    expected_value := none
    severity := some "medium"
    is_active := true }

/-- The rule an item resolves to: exact category match with the `Others`
fallback (`none` when resolution raises or finds nothing). -/
def itemResolvedRule (rules : List AuditRule) (item : Json) : Option AuditRule :=
  match item with
  | .obj kvs =>
    match resolveRule rules ((dictGet kvs "category").getD (.str "Others")) with
    | .ok r => r
    | .error _ => none
  | _ => none

/-- The item's amount as coerced by `float(item.get('amount', 0))`
(`none` when the coercion raises). -/
def itemAmountQ (item : Json) : Option ℚ :=
  match item with
  | .obj kvs => (pyFloat ((dictGet kvs "amount").getD (.num 0))).toOption
  | _ => none

/-- The item resolves to a restricted rule. -/
def itemIsRestrictedB (rules : List AuditRule) (item : Json) : Bool :=
  match itemResolvedRule rules item with
  | some r => r.is_restricted
  | none => false

/-- The item's amount exceeds its resolved rule's `max_limit`. -/
def itemExceedsB (rules : List AuditRule) (item : Json) : Bool :=
  match itemResolvedRule rules item, itemAmountQ item with
  | some r, some a => decide (r.max_limit < a)
  | _, _ => false

lemma dictGet_append_single (l : List (String × Json)) (k k' : String) (v : Json) :
    dictGet (l ++ [(k, v)]) k' = if k = k' then some v else dictGet l k' := by
  unfold dictGet
  rw [List.foldl_append]
  simp

lemma mapME_ok_cons {f : Json → Except String ItemStep} {x : Json} {xs : List Json}
    {steps : List ItemStep} (h : mapME f (x :: xs) = .ok steps) :
    ∃ s ss, f x = .ok s ∧ mapME f xs = .ok ss ∧ steps = s :: ss := by
  unfold mapME at h
  split at h
  · exact Except.noConfusion h
  · next s hf =>
    split at h
    · exact Except.noConfusion h
    · next ss hm =>
      injection h with h
      exact ⟨s, ss, hf, hm, h.symm⟩

lemma mapME_exists_iff {f : Json → Except String ItemStep} (P : ItemStep → Prop)
    {items : List Json} {steps : List ItemStep} (h : mapME f items = .ok steps) :
    (∃ s ∈ steps, P s) ↔ (∃ item ∈ items, ∃ s, f item = .ok s ∧ P s) := by
  induction items generalizing steps with
  | nil =>
    unfold mapME at h
    injection h with h
    subst h
    simp
  | cons x xs ih =>
    obtain ⟨s, ss, hf, hm, rfl⟩ := mapME_ok_cons h
    have ihx := ih hm
    constructor
    · rintro ⟨t, ht, hP⟩
      rcases List.mem_cons.mp ht with rfl | ht
      · exact ⟨x, List.mem_cons_self _ _, t, hf, hP⟩
      · obtain ⟨item, hi, s', hf', hP'⟩ := ihx.mp ⟨t, ht, hP⟩
        exact ⟨item, List.mem_cons_of_mem _ hi, s', hf', hP'⟩
    · rintro ⟨item, hi, s', hf', hP'⟩
      rcases List.mem_cons.mp hi with rfl | hi
      · have hss : s' = s := by
          rw [hf] at hf'
          injection hf' with h2
          exact h2.symm
        exact ⟨s, List.mem_cons_self _ _, hss ▸ hP'⟩
      · obtain ⟨t, ht, hP⟩ := ihx.mpr ⟨item, hi, s', hf', hP'⟩
        exact ⟨t, List.mem_cons_of_mem _ ht, hP⟩

lemma mapME_forall {f : Json → Except String ItemStep}
    {items : List Json} {steps : List ItemStep} (h : mapME f items = .ok steps)
    {item : Json} (hi : item ∈ items) : ∃ s, f item = .ok s := by
  induction items generalizing steps with
  | nil => cases hi
  | cons x xs ih =>
    obtain ⟨s, ss, hf, hm, rfl⟩ := mapME_ok_cons h
    rcases List.mem_cons.mp hi with rfl | hi
    · exact ⟨s, hf⟩
    · exact ih hm hi

lemma auditStructured_ok {jd : Json} {rules : List AuditRule} {r : AuditResult}
    (h : auditStructured jd rules = .ok r) :
    ∃ items steps, getItems jd = .ok items ∧ mapME (checkItem rules) items = .ok steps ∧
      r = buildStructuredResult steps := by
  unfold auditStructured at h
  split at h
  · exact Except.noConfusion h
  · next items hg =>
    split at h
    · exact Except.noConfusion h
    · next steps hm =>
      injection h with h
      exact ⟨items, steps, hg, hm, h.symm⟩

lemma validate_ok {reMatch : String → String → Except String Bool}
    {data : List (String × Json)} {policies : List AuditPolicy} {r : AuditResult}
    (h : validate_against_policies reMatch data policies = .ok r) :
    ∃ vs, runPolicies reMatch data policies = .ok vs ∧
      r = buildPolicyResult (policies.filter (fun p => p.is_active)).length vs := by
  unfold validate_against_policies at h
  split at h
  · exact Except.noConfusion h
  · next vs hr =>
    injection h with h
    exact ⟨vs, hr, h.symm⟩

lemma round2_hundred : round2 100 = 100 := by
  unfold round2
  norm_num

lemma checkItem_restricted_iff {rules : List AuditRule} {item : Json} {step : ItemStep}
    (h : checkItem rules item = .ok step) :
    (step.restricted_names ≠ [] ↔ itemIsRestrictedB rules item = true) := by
  cases item with
  | obj kvs =>
    simp only [checkItem] at h
    split at h
    · exact Except.noConfusion h
    · next amount hf =>
      split at h
      · exact Except.noConfusion h
      · next hr =>
        injection h with h
        subst h
        simp [itemIsRestrictedB, itemResolvedRule, hr]
      · next rule hr =>
        by_cases hres : rule.is_restricted = true
        · rw [if_pos hres] at h
          injection h with h
          subst h
          simp [itemIsRestrictedB, itemResolvedRule, hr, hres]
        · rw [if_neg hres] at h
          split at h <;>
          · injection h with h
            subst h
            simp [itemIsRestrictedB, itemResolvedRule, hr]
            simpa using hres
  | null => exact Except.noConfusion h
  | bool b => exact Except.noConfusion h
  | num q => exact Except.noConfusion h
  | str s => exact Except.noConfusion h
  | arr xs => exact Except.noConfusion h

lemma checkItem_exceeded_iff {rules : List AuditRule} {item : Json} {step : ItemStep}
    (h : checkItem rules item = .ok step) :
    (step.exceeded_names ≠ [] ↔
      (itemIsRestrictedB rules item = false ∧ itemExceedsB rules item = true)) := by
  cases item with
  | obj kvs =>
    simp only [checkItem] at h
    split at h
    · exact Except.noConfusion h
    · next amount hf =>
      split at h
      · exact Except.noConfusion h
      · next hr =>
        injection h with h
        subst h
        simp [itemIsRestrictedB, itemExceedsB, itemResolvedRule, hr]
      · next rule hr =>
        by_cases hres : rule.is_restricted = true
        · rw [if_pos hres] at h
          injection h with h
          subst h
          simp [itemIsRestrictedB, itemResolvedRule, hr, hres]
        · rw [if_neg hres] at h
          by_cases hlt : rule.max_limit < amount
          · rw [if_pos hlt] at h
            injection h with h
            subst h
            simp [itemIsRestrictedB, itemExceedsB, itemResolvedRule, itemAmountQ, hr, hf,
              Except.toOption, hlt]
            simpa using hres
          · rw [if_neg hlt] at h
            injection h with h
            subst h
            simp [itemIsRestrictedB, itemExceedsB, itemResolvedRule, itemAmountQ, hr, hf,
              Except.toOption]
            intro _
            simpa using hlt
  | null => exact Except.noConfusion h
  | bool b => exact Except.noConfusion h
  | num q => exact Except.noConfusion h
  | str s => exact Except.noConfusion h
  | arr xs => exact Except.noConfusion h

lemma checkItem_not_both {rules : List AuditRule} {item : Json} {step : ItemStep}
    (h : checkItem rules item = .ok step) :
    ¬ (step.violations.any (fun v => v.violation_type == "restricted_item") = true ∧
       step.violations.any (fun v => v.violation_type == "amount_exceeded") = true) := by
  cases item with
  | obj kvs =>
    simp only [checkItem] at h
    split at h
    · exact Except.noConfusion h
    · next amount hf =>
      split at h
      · exact Except.noConfusion h
      · next hr =>
        injection h with h
        subst h
        simp
      · next rule hr =>
        split at h
        · injection h with h
          subst h
          simp
        · split at h <;>
          · injection h with h
            subst h
            simp
  | null => exact Except.noConfusion h
  | bool b => exact Except.noConfusion h
  | num q => exact Except.noConfusion h
  | str s => exact Except.noConfusion h
  | arr xs => exact Except.noConfusion h

lemma buildStructuredResult_total (steps : List ItemStep) :
    (buildStructuredResult steps).total_violations =
      (buildStructuredResult steps).violations.length := rfl

lemma buildStructuredResult_rejected {steps : List ItemStep}
    (h : steps.flatMap ItemStep.restricted_names ≠ []) :
    (buildStructuredResult steps).approval_status = some "rejected" ∧
    (buildStructuredResult steps).status_color = some "red" ∧
    (buildStructuredResult steps).compliance_score = 0 := by
  have hp : 0 < (steps.flatMap ItemStep.restricted_names).length := List.length_pos.mpr h
  simp only [buildStructuredResult]
  rw [if_pos hp]
  exact ⟨rfl, rfl, rfl⟩

lemma buildStructuredResult_warning {steps : List ItemStep}
    (h1 : steps.flatMap ItemStep.restricted_names = [])
    (h2 : steps.flatMap ItemStep.exceeded_names ≠ []) :
    (buildStructuredResult steps).approval_status = some "warning" ∧
    (buildStructuredResult steps).status_color = some "yellow" ∧
    (buildStructuredResult steps).compliance_score = 50 := by
  have hp : 0 < (steps.flatMap ItemStep.exceeded_names).length := List.length_pos.mpr h2
  have hn : ¬ 0 < (steps.flatMap ItemStep.restricted_names).length := by
    rw [h1]
    simp
  simp only [buildStructuredResult]
  rw [if_neg hn, if_pos hp]
  exact ⟨rfl, rfl, rfl⟩

lemma buildStructuredResult_approved {steps : List ItemStep}
    (h1 : steps.flatMap ItemStep.restricted_names = [])
    (h2 : steps.flatMap ItemStep.exceeded_names = []) :
    (buildStructuredResult steps).approval_status = some "approved" ∧
    (buildStructuredResult steps).status_color = some "green" ∧
    (buildStructuredResult steps).compliance_score = 100 := by
  have hn1 : ¬ 0 < (steps.flatMap ItemStep.restricted_names).length := by
    rw [h1]
    simp
  have hn2 : ¬ 0 < (steps.flatMap ItemStep.exceeded_names).length := by
    rw [h2]
    simp
  simp only [buildStructuredResult]
  rw [if_neg hn1, if_neg hn2]
  exact ⟨rfl, rfl, rfl⟩

lemma buildStructuredResult_status_inv (steps : List ItemStep) (s : String)
    (hs : (buildStructuredResult steps).approval_status = some s) :
    (buildStructuredResult steps).is_compliant = (s == "approved") := by
  simp only [buildStructuredResult] at hs ⊢
  by_cases h1 : 0 < (steps.flatMap ItemStep.restricted_names).length
  · rw [if_pos h1] at hs ⊢
    injection hs with hs
    subst hs
    rfl
  · rw [if_neg h1] at hs ⊢
    by_cases h2 : 0 < (steps.flatMap ItemStep.exceeded_names).length
    · rw [if_pos h2] at hs ⊢
      injection hs with hs
      subst hs
      rfl
    · rw [if_neg h2] at hs ⊢
      injection hs with hs
      subst hs
      rfl

lemma fallbackAudit_total (raw : String) :
    (fallbackAudit raw).total_violations = (fallbackAudit raw).violations.length := by
  simp only [fallbackAudit]
  split
  · rfl
  · split <;> rfl

lemma fallbackAudit_status_inv (raw : String) (s : String)
    (hs : (fallbackAudit raw).approval_status = some s) :
    (fallbackAudit raw).is_compliant = (s == "approved") := by
  simp only [fallbackAudit] at hs ⊢
  split at hs
  · next hc =>
    rw [if_pos hc]
    injection hs with hs
    subst hs
    rfl
  · next hc =>
    rw [if_neg hc]
    split at hs
    · next hd =>
      rw [if_pos hd]
      injection hs with hs
      subst hs
      rfl
    · next hd =>
      rw [if_neg hd]
      injection hs with hs
      subst hs
      rfl

lemma buildPolicyResult_none (n : Nat) (vs : List Violation) :
    (buildPolicyResult n vs).approval_status = none ∧
    (buildPolicyResult n vs).status_color = none := ⟨rfl, rfl⟩

/-- C6: every `AuditResult` produced by any evaluation path — the
structured category audit, the keyword fallback, the processing-error
handler, and the standalone policy evaluator (whenever it returns at all) —
carries `total_violations` equal to the length of its `violations` list. -/
theorem c6_total_violations_matches_length :
    (∀ (raw : String) (jd : Option Json) (rules : List AuditRule),
        (perform_audit raw jd rules).total_violations =
          (perform_audit raw jd rules).violations.length) ∧
    (∀ (reMatch : String → String → Except String Bool) (data : List (String × Json))
        (policies : List AuditPolicy) (r : AuditResult),
        validate_against_policies reMatch data policies = .ok r →
        r.total_violations = r.violations.length) := by
  constructor
  · intro raw jd rules
    cases jd with
    | none => exact fallbackAudit_total raw
    | some j =>
      cases h : auditStructured j rules with
      | ok r =>
        have hpa : perform_audit raw (some j) rules = r := by simp [perform_audit, h]
        rw [hpa]
        obtain ⟨items, steps, hg, hm, rfl⟩ := auditStructured_ok h
        exact buildStructuredResult_total steps
      | error e =>
        have hpa : perform_audit raw (some j) rules = processingErrorResult e := by
          simp [perform_audit, h]
        rw [hpa]
        rfl
  · intro reMatch data policies r h
    obtain ⟨vs, hr, rfl⟩ := validate_ok h
    rfl

/-- Witness for C6: the invariant evaluated on a concrete fallback-path
call and a concrete policy-evaluator call. -/
theorem c6_witness :
    (perform_audit "doc" none []).total_violations =
      (perform_audit "doc" none []).violations.length ∧
    ∃ r, validate_against_policies (fun _ _ => Except.ok true) [] [] = Except.ok r ∧
      r.total_violations = r.violations.length := by
  refine ⟨c6_total_violations_matches_length.1 "doc" none [], ?_⟩
  exact ⟨_, rfl,
    c6_total_violations_matches_length.2 (fun _ _ => Except.ok true) [] [] _ rfl⟩

/-- C7: every `AuditResult` produced by any evaluation path satisfies
`is_compliant = (approval_status == "approved")` whenever
`approval_status` is set. -/
theorem c7_compliant_iff_approved :
    (∀ (raw : String) (jd : Option Json) (rules : List AuditRule) (s : String),
        (perform_audit raw jd rules).approval_status = some s →
        (perform_audit raw jd rules).is_compliant = (s == "approved")) ∧
    (∀ (reMatch : String → String → Except String Bool) (data : List (String × Json))
        (policies : List AuditPolicy) (r : AuditResult) (s : String),
        validate_against_policies reMatch data policies = .ok r →
        r.approval_status = some s →
        r.is_compliant = (s == "approved")) := by
  constructor
  · intro raw jd rules s hs
    cases jd with
    | none => exact fallbackAudit_status_inv raw s hs
    | some j =>
      cases h : auditStructured j rules with
      | ok r =>
        have hpa : perform_audit raw (some j) rules = r := by simp [perform_audit, h]
        rw [hpa] at hs ⊢
        obtain ⟨items, steps, hg, hm, rfl⟩ := auditStructured_ok h
        exact buildStructuredResult_status_inv steps s hs
      | error e =>
        have hpa : perform_audit raw (some j) rules = processingErrorResult e := by
          simp [perform_audit, h]
        rw [hpa] at hs
        exact Option.noConfusion hs
  · intro reMatch data policies r s h hs
    obtain ⟨vs, hr, rfl⟩ := validate_ok h
    exact Option.noConfusion hs

/-- Witness for C7: the invariant evaluated on a concrete fallback-path
result whose approval status is set. -/
theorem c7_witness :
    (perform_audit "doc" none []).approval_status = some "approved" ∧
    (perform_audit "doc" none []).is_compliant = ("approved" == "approved") := by
  have hs : (perform_audit "doc" none []).approval_status = some "approved" := by decide
  exact ⟨hs, c7_compliant_iff_approved.1 "doc" none [] "approved" hs⟩

/-- C3: `perform_audit` is total on its modelled inputs (the Lean embedding
returns an `AuditResult` for every raw text, parse outcome and rule set,
with every exception point of the `try` block captured by `Except`), and
whenever a failure other than a JSON parse failure occurs during
evaluation — i.e. the structured path raises — it returns the degraded
result: not compliant, exactly one `processing_error` violation of severity
`high` carrying the failure description, compliance score 0, and no
approval status or status colour set. -/
theorem c3_never_raises_degraded_result (raw : String) (jd : Json)
    (rules : List AuditRule) (e : String)
    (h : auditStructured jd rules = .error e) :
    (perform_audit raw (some jd) rules).is_compliant = false ∧
    (perform_audit raw (some jd) rules).total_violations = 1 ∧
    (∃ v, (perform_audit raw (some jd) rules).violations = [v] ∧
      v.violation_type = "processing_error" ∧ v.severity = "high" ∧
      v.message = "Error processing audit: " ++ e) ∧
    (perform_audit raw (some jd) rules).compliance_score = 0 ∧
    (perform_audit raw (some jd) rules).approval_status = none ∧
    (perform_audit raw (some jd) rules).status_color = none := by
  have hpa : perform_audit raw (some jd) rules = processingErrorResult e := by
    simp [perform_audit, h]
  rw [hpa]
  exact ⟨rfl, rfl, ⟨_, rfl, rfl, rfl, rfl⟩, rfl, rfl, rfl⟩

/-- Witness for C3: a top-level JSON value that is not an object makes the
structured path raise (`.get` on an int), and the entry point returns the
degraded result. -/
theorem c3_witness :
    auditStructured (Json.num 1) [] =
      Except.error "AttributeError: object has no attribute get" ∧
    (perform_audit "raw" (some (Json.num 1)) []).is_compliant = false ∧
    (perform_audit "raw" (some (Json.num 1)) []).compliance_score = 0 ∧
    (perform_audit "raw" (some (Json.num 1)) []).approval_status = none := by
  have h : auditStructured (Json.num 1) [] =
      Except.error "AttributeError: object has no attribute get" := rfl
  have hc := c3_never_raises_degraded_result "raw" (Json.num 1) [] _ h
  exact ⟨h, hc.1, hc.2.2.2.1, hc.2.2.2.2.1⟩

/-- C4: on a JSON parse failure the fallback path applies — no invoice
keyword in the raw text gives an approved result with score 100 and no
violations; otherwise any case-insensitive alcohol-keyword hit gives a
rejected result with score 0 and exactly one `restricted_item` violation
flagging all matched alcohol keywords (in particular "whiskey" when it
occurs); otherwise an approved result with score 100 and no violations. -/
theorem c4_fallback_keyword_decision (raw : String) (rules : List AuditRule) :
    (invoice_keywords.any (fun kw => strContains (pyLower raw) kw) = false →
        (perform_audit raw none rules).approval_status = some "approved" ∧
        (perform_audit raw none rules).compliance_score = 100 ∧
        (perform_audit raw none rules).violations = []) ∧
    (invoice_keywords.any (fun kw => strContains (pyLower raw) kw) = true →
      (alcohol_keywords.filter (fun kw => strContains (pyLower raw) kw) ≠ [] →
        (perform_audit raw none rules).approval_status = some "rejected" ∧
        (perform_audit raw none rules).compliance_score = 0 ∧
        ∃ v, (perform_audit raw none rules).violations = [v] ∧
          v.violation_type = "restricted_item" ∧
          v.flagged_items = some
            ((alcohol_keywords.filter (fun kw => strContains (pyLower raw) kw)).map Json.str)) ∧
      (alcohol_keywords.filter (fun kw => strContains (pyLower raw) kw) = [] →
        (perform_audit raw none rules).approval_status = some "approved" ∧
        (perform_audit raw none rules).compliance_score = 100 ∧
        (perform_audit raw none rules).violations = []) ∧
      (strContains (pyLower raw) "whiskey" = true →
        ∃ v l, (perform_audit raw none rules).violations = [v] ∧
          v.flagged_items = some l ∧ Json.str "whiskey" ∈ l)) := by
  have hpa : perform_audit raw none rules = fallbackAudit raw := rfl
  constructor
  · intro h
    rw [hpa]
    simp only [fallbackAudit]
    rw [if_pos (by simp [h])]
    exact ⟨rfl, rfl, rfl⟩
  · intro h
    refine ⟨?_, ?_, ?_⟩
    · intro hne
      rw [hpa]
      simp only [fallbackAudit]
      rw [if_neg (by simp [h]), if_pos (List.length_pos.mpr hne)]
      exact ⟨rfl, rfl, ⟨_, rfl, rfl, rfl⟩⟩
    · intro heq
      rw [hpa]
      simp only [fallbackAudit]
      rw [if_neg (by simp [h]), heq, if_neg (by simp)]
      exact ⟨rfl, rfl, rfl⟩
    · intro hw
      have hmem : "whiskey" ∈ alcohol_keywords.filter (fun kw => strContains (pyLower raw) kw) := by
        apply List.mem_filter.mpr
        refine ⟨?_, hw⟩
        simp [alcohol_keywords]
      have hne : alcohol_keywords.filter (fun kw => strContains (pyLower raw) kw) ≠ [] := by
        intro hh
        rw [hh] at hmem
        cases hmem
      rw [hpa]
      simp only [fallbackAudit]
      rw [if_neg (by simp [h]), if_pos (List.length_pos.mpr hne)]
      exact ⟨_, _, rfl, rfl, List.mem_map_of_mem _ hmem⟩

/-- Witness for C4: a raw text with an invoice keyword and "whiskey" is
rejected with score 0 and one violation flagging "whiskey". -/
theorem c4_witness :
    invoice_keywords.any (fun kw => strContains (pyLower "Invoice: whiskey bottle") kw) = true ∧
    (perform_audit "Invoice: whiskey bottle" none []).approval_status = some "rejected" ∧
    (perform_audit "Invoice: whiskey bottle" none []).compliance_score = 0 ∧
    ∃ v l, (perform_audit "Invoice: whiskey bottle" none []).violations = [v] ∧
      v.flagged_items = some l ∧ Json.str "whiskey" ∈ l := by
  have h : invoice_keywords.any
      (fun kw => strContains (pyLower "Invoice: whiskey bottle") kw) = true := by decide
  have hc := (c4_fallback_keyword_decision "Invoice: whiskey bottle" []).2 h
  have hr := hc.1 (by decide)
  exact ⟨h, hr.1, hr.2.1, hc.2.2 (by decide)⟩

/-- C10: the top-level `total_amount` field of the structured JSON is read
but never used — two parsed objects with the same `items` value (and any
`total_amount` values) produce identical audit results for the same raw
text and rules. -/
theorem c10_total_amount_ignored (raw : String) (rules : List AuditRule)
    (kvs1 kvs2 : List (String × Json))
    (h : dictGet kvs1 "items" = dictGet kvs2 "items") :
    perform_audit raw (some (.obj kvs1)) rules =
      perform_audit raw (some (.obj kvs2)) rules := by
  have hg : getItems (.obj kvs1) = getItems (.obj kvs2) := by
    simp only [getItems]
    rw [h]
  simp only [perform_audit, auditStructured]
  rw [hg]

/-- Witness for C10: the same items with total amounts 100 and 999 produce
identical results. -/
theorem c10_witness :
    dictGet [("items", Json.arr []), ("total_amount", Json.num 100)] "items" =
      dictGet [("items", Json.arr []), ("total_amount", Json.num 999)] "items" ∧
    perform_audit "d" (some (Json.obj [("items", Json.arr []), ("total_amount", Json.num 100)])) [] =
      perform_audit "d" (some (Json.obj [("items", Json.arr []), ("total_amount", Json.num 999)])) [] := by
  have h : dictGet [("items", Json.arr []), ("total_amount", Json.num 100)] "items" =
      dictGet [("items", Json.arr []), ("total_amount", Json.num 999)] "items" := rfl
  exact ⟨h, c10_total_amount_ignored "d" [] _ _ h⟩

/-- Counterexample to C5: an item whose amount is the unparsable string
"twelve" does not continue with amount 0 — `float` raises inside the item
loop and `perform_audit` returns the degraded processing-error result (no
approval status) instead of a category-audit result. -/
theorem c5_counterexample :
    ((perform_audit "bill"
        (some (Json.obj [("items", Json.arr
          [Json.obj [("name", Json.str "Pens"), ("category", Json.str "Food"),
                     ("amount", Json.str "twelve")]])]))
        default_rules).violations.map (fun v => v.violation_type) = ["processing_error"]) ∧
    (perform_audit "bill"
        (some (Json.obj [("items", Json.arr
          [Json.obj [("name", Json.str "Pens"), ("category", Json.str "Food"),
                     ("amount", Json.str "twelve")]])]))
        default_rules).approval_status = none ∧
    (perform_audit "bill"
        (some (Json.obj [("items", Json.arr
          [Json.obj [("name", Json.str "Pens"), ("category", Json.str "Food"),
                     ("amount", Json.str "twelve")]])]))
        default_rules).compliance_score = 0 := ⟨rfl, rfl, rfl⟩

lemma auditStructured_singleton_error {rules : List AuditRule} {item : Json} {e : String}
    (hc : checkItem rules item = .error e)
    (kvs : List (String × Json)) (hi : dictGet kvs "items" = some (Json.arr [item])) :
    auditStructured (Json.obj kvs) rules = .error e := by
  have hg : getItems (Json.obj kvs) = .ok [item] := by
    simp only [getItems, hi]
  have hm : mapME (checkItem rules) [item] = .error e := by
    simp only [mapME, hc]
  simp only [auditStructured, hg, hm]

/-- C5 as amended: an item whose amount field is *absent* behaves exactly
like one with an explicit amount of 0, and evaluation continues; but an
item whose amount is present and unparsable as a decimal makes the item
loop raise, so the structured path yields the degraded processing-error
result rather than a category-audit result. -/
theorem c5_amended_amount_default (rules : List AuditRule) (kvs : List (String × Json)) :
    (dictGet kvs "amount" = none →
      checkItem rules (Json.obj kvs) =
        checkItem rules (Json.obj (kvs ++ [("amount", Json.num 0)]))) ∧
    (∀ s, dictGet kvs "amount" = some (Json.str s) → pyFloatOfString s = none →
      ∀ raw,
        ((perform_audit raw (some (Json.obj [("items", Json.arr [Json.obj kvs])])) rules).violations.map
            (fun v => v.violation_type) = ["processing_error"]) ∧
        (perform_audit raw (some (Json.obj [("items", Json.arr [Json.obj kvs])])) rules).approval_status =
          none) := by
  constructor
  · intro h
    have h1 : dictGet (kvs ++ [("amount", Json.num 0)]) "name" = dictGet kvs "name" := by
      rw [dictGet_append_single, if_neg (by decide)]
    have h2 : dictGet (kvs ++ [("amount", Json.num 0)]) "category" = dictGet kvs "category" := by
      rw [dictGet_append_single, if_neg (by decide)]
    have h3 : dictGet (kvs ++ [("amount", Json.num 0)]) "amount" = some (Json.num 0) := by
      rw [dictGet_append_single, if_pos rfl]
    simp only [checkItem, h1, h2, h3, h, Option.getD]
  · intro s hs hp raw
    have hc : checkItem rules (Json.obj kvs) =
        Except.error ("ValueError: could not convert string to float: " ++ s) := by
      simp only [checkItem, hs, Option.getD, pyFloat, hp]
    have ha := auditStructured_singleton_error hc
      [("items", Json.arr [Json.obj kvs])] rfl
    have hpa : perform_audit raw (some (Json.obj [("items", Json.arr [Json.obj kvs])])) rules =
        processingErrorResult ("ValueError: could not convert string to float: " ++ s) := by
      simp [perform_audit, ha]
    rw [hpa]
    exact ⟨rfl, rfl⟩

/-- Witness for the amended C5: a concrete item without an amount equals
its explicit-zero variant, and a concrete unparsable amount yields the
degraded result. -/
theorem c5_witness :
    dictGet [("name", Json.str "Tea")] "amount" = none ∧
    (checkItem default_rules (Json.obj [("name", Json.str "Tea")]) =
      checkItem default_rules
        (Json.obj ([("name", Json.str "Tea")] ++ [("amount", Json.num 0)]))) ∧
    dictGet [("amount", Json.str "twelve")] "amount" = some (Json.str "twelve") ∧
    pyFloatOfString "twelve" = none ∧
    ((perform_audit "r"
        (some (Json.obj [("items", Json.arr [Json.obj [("amount", Json.str "twelve")]])]))
        default_rules).violations.map (fun v => v.violation_type) = ["processing_error"]) := by
  have h1 : dictGet [("name", Json.str "Tea")] "amount" = none := rfl
  have h2 : dictGet [("amount", Json.str "twelve")] "amount" = some (Json.str "twelve") := rfl
  have h3 : pyFloatOfString "twelve" = none := rfl
  have hA := (c5_amended_amount_default default_rules [("name", Json.str "Tea")]).1 h1
  have hB := ((c5_amended_amount_default default_rules
    [("amount", Json.str "twelve")]).2 "twelve" h2 h3 "r").1
  exact ⟨h1, hA, h2, h3, hB⟩

/-- C2 (code defect): a `content_warning` policy with condition
`contains_keywords` can never emit a violation — line 309 of
audit_service.py reads the name `groq_response`, which is undefined in the
scope of `validate_against_policies`, so the call raises `NameError`
instead of matching keywords against the raw source text as the spec
describes.  The theorem evaluates the model on the seeded default
"Alcohol Content Warning" policy: for every regex oracle and every
extracted-fields mapping the evaluator fails. -/
theorem c2_content_warning_raises_name_error
    (reMatch : String → String → Except String Bool)
    (invoice_data : List (String × Json)) :
    validate_against_policies reMatch invoice_data [alcoholContentPolicy] =
      Except.error "NameError: name groq_response is not defined" := rfl

/-- C8: whenever the policy evaluator returns a result, its compliance
score follows the documented formula — with `N` the number of active
policies and `E` the number of emitted violations of severity medium or
high, the score is `round2 (max 0 ((N - E) / N * 100))` for `N > 0` and
100 for `N = 0` (warning-severity violations do not lower it) —
`is_compliant` holds exactly when no violation was emitted, and neither
`approval_status` nor `status_color` is set. -/
theorem c8_policy_scoring
    (reMatch : String → String → Except String Bool)
    (invoice_data : List (String × Json)) (policies : List AuditPolicy)
    (r : AuditResult)
    (h : validate_against_policies reMatch invoice_data policies = .ok r) :
    ((policies.filter (fun p => p.is_active)).length = 0 → r.compliance_score = 100) ∧
    (0 < (policies.filter (fun p => p.is_active)).length →
      r.compliance_score = round2 (max 0
        ((((policies.filter (fun p => p.is_active)).length : ℚ) -
          ((r.violations.filter
              (fun v => v.severity == "medium" || v.severity == "high")).length : ℚ)) /
          ((policies.filter (fun p => p.is_active)).length : ℚ) * 100))) ∧
    (r.is_compliant = true ↔ r.violations = []) ∧
    r.approval_status = none ∧ r.status_color = none := by
  obtain ⟨vs, hr, rfl⟩ := validate_ok h
  refine ⟨?_, ?_, ?_, rfl, rfl⟩
  · intro h0
    rw [h0]
    simp only [buildPolicyResult]
    rw [if_neg (by decide)]
    exact round2_hundred
  · intro hp
    simp only [buildPolicyResult]
    rw [if_pos hp]
  · simp only [buildPolicyResult]
    simp [List.length_eq_zero]

/-- Witness for C8: one active required-field policy over empty extracted
fields emits one medium-severity violation, and the returned result follows
the formula at `N = 1`. -/
theorem c8_witness :
    ∃ r, validate_against_policies (fun _ _ => Except.ok true) [] [amountRequiredPolicy] =
        Except.ok r ∧
      0 < ([amountRequiredPolicy].filter (fun p => p.is_active)).length ∧
      r.compliance_score = round2 (max 0
        (((([amountRequiredPolicy].filter (fun p => p.is_active)).length : ℚ) -
          ((r.violations.filter
              (fun v => v.severity == "medium" || v.severity == "high")).length : ℚ)) /
          (([amountRequiredPolicy].filter (fun p => p.is_active)).length : ℚ) * 100)) ∧
      (r.is_compliant = true ↔ r.violations = []) ∧
      r.approval_status = none := by
  refine ⟨_, rfl, by decide, ?_, ?_, ?_⟩
  · exact (c8_policy_scoring (fun _ _ => Except.ok true) [] [amountRequiredPolicy] _ rfl).2.1
      (by decide)
  · exact (c8_policy_scoring (fun _ _ => Except.ok true) [] [amountRequiredPolicy] _ rfl).2.2.1
  · exact (c8_policy_scoring (fun _ _ => Except.ok true) [] [amountRequiredPolicy] _ rfl).2.2.2.1

lemma findAmount_eq_findSome (reSearch : String → String → Option String)
    (text : String) (pats : List String) :
    findAmount reSearch text pats =
      pats.findSome? (fun p => (reSearch p text).bind
        (fun m => pyFloatOfString (stripCommas m))) := by
  induction pats with
  | nil => rfl
  | cons p rest ih =>
    cases hm : reSearch p text with
    | none => simp [findAmount, List.findSome?_cons, hm, ih]
    | some m =>
      cases hp : pyFloatOfString (stripCommas m) with
      | none => simp [findAmount, List.findSome?_cons, hm, hp, ih]
      | some q => simp [findAmount, List.findSome?_cons, hm, hp]

lemma dictGet_append_ne (l : List (String × Json)) {k k' : String}
    (hne : k ≠ k') (v : Json) :
    dictGet (l ++ [(k, v)]) k' = dictGet l k' := by
  rw [dictGet_append_single, if_neg hne]

/-- C9: the field extractor's amount extraction tries the fixed amount
patterns in order, accepting the first match whose comma-stripped capture
parses as a decimal; an unparsable capture is discarded in favour of the
next pattern, and the "amount" key is simply absent from the output when no
pattern yields a parseable amount (extraction is total).  The `re.search`
library call is an oracle parameter, so the equation holds for every
possible matching behaviour. -/
theorem c9_amount_extraction_first_parse_wins
    (reSearch : String → String → Option String) (text : String) :
    dictGet (extract_invoice_data reSearch text) "amount" =
      (amount_patterns.findSome? (fun p =>
        (reSearch p text).bind (fun m => pyFloatOfString (stripCommas m)))).map Json.num := by
  rw [← findAmount_eq_findSome]
  simp only [extract_invoice_data]
  cases h1 : firstMatch reSearch text invoice_patterns <;>
    cases h2 : findAmount reSearch text amount_patterns <;>
      cases h3 : firstMatch reSearch text date_patterns <;>
        cases h4 : findVendor reSearch text vendor_patterns <;>
          (split <;> simp [dictGet_append_single, dictGet])

lemma flatMap_restricted_iff {rules : List AuditRule} {items : List Json}
    {steps : List ItemStep} (hm : mapME (checkItem rules) items = .ok steps) :
    steps.flatMap ItemStep.restricted_names ≠ [] ↔
      items.any (itemIsRestrictedB rules) = true := by
  rw [List.any_eq_true]
  constructor
  · intro hne
    have hex : ∃ s ∈ steps, s.restricted_names ≠ [] := by
      by_contra hall
      push_neg at hall
      exact hne (List.flatMap_eq_nil_iff.mpr fun s hs => hall s hs)
    obtain ⟨item, hi, s', hf, hP⟩ :=
      (mapME_exists_iff (fun s => s.restricted_names ≠ []) hm).mp hex
    exact ⟨item, hi, (checkItem_restricted_iff hf).mp hP⟩
  · rintro ⟨item, hi, hres⟩
    obtain ⟨s', hf⟩ := mapME_forall hm hi
    have hP : s'.restricted_names ≠ [] := (checkItem_restricted_iff hf).mpr hres
    obtain ⟨t, ht, hPt⟩ :=
      (mapME_exists_iff (fun s => s.restricted_names ≠ []) hm).mpr ⟨item, hi, s', hf, hP⟩
    intro hnil
    exact hPt (List.flatMap_eq_nil_iff.mp hnil t ht)

lemma flatMap_exceeded_iff {rules : List AuditRule} {items : List Json}
    {steps : List ItemStep} (hm : mapME (checkItem rules) items = .ok steps) :
    steps.flatMap ItemStep.exceeded_names ≠ [] ↔
      ∃ item ∈ items, itemIsRestrictedB rules item = false ∧
        itemExceedsB rules item = true := by
  constructor
  · intro hne
    have hex : ∃ s ∈ steps, s.exceeded_names ≠ [] := by
      by_contra hall
      push_neg at hall
      exact hne (List.flatMap_eq_nil_iff.mpr fun s hs => hall s hs)
    obtain ⟨item, hi, s', hf, hP⟩ :=
      (mapME_exists_iff (fun s => s.exceeded_names ≠ []) hm).mp hex
    exact ⟨item, hi, (checkItem_exceeded_iff hf).mp hP⟩
  · rintro ⟨item, hi, hres⟩
    obtain ⟨s', hf⟩ := mapME_forall hm hi
    have hP : s'.exceeded_names ≠ [] := (checkItem_exceeded_iff hf).mpr hres
    obtain ⟨t, ht, hPt⟩ :=
      (mapME_exists_iff (fun s => s.exceeded_names ≠ []) hm).mpr ⟨item, hi, s', hf, hP⟩
    intro hnil
    exact hPt (List.flatMap_eq_nil_iff.mp hnil t ht)

/-- C1: on the structured path, every item's rule resolves by exact
category match with the `"Others"` fallback (the `itemResolvedRule` /
`itemIsRestrictedB` / `itemExceedsB` readings below), and the ternary
decision holds with strict precedence: some item resolving to a restricted
rule gives rejected/red/0 regardless of other items; otherwise some item
exceeding its resolved rule's `max_limit` gives warning/yellow/50;
otherwise approved/green/100.  Moreover no single item ever contributes
both a `restricted_item` and an `amount_exceeded` violation. -/
theorem c1_ternary_category_decision (raw : String) (rules : List AuditRule)
    (kvs : List (String × Json)) (items : List Json) (res : AuditResult)
    (hitems : dictGet kvs "items" = some (Json.arr items))
    (hok : auditStructured (Json.obj kvs) rules = .ok res) :
    perform_audit raw (some (Json.obj kvs)) rules = res ∧
    (items.any (itemIsRestrictedB rules) = true →
      res.approval_status = some "rejected" ∧ res.status_color = some "red" ∧
      res.compliance_score = 0) ∧
    (items.any (itemIsRestrictedB rules) = false →
      items.any (itemExceedsB rules) = true →
      res.approval_status = some "warning" ∧ res.status_color = some "yellow" ∧
      res.compliance_score = 50) ∧
    (items.any (itemIsRestrictedB rules) = false →
      items.any (itemExceedsB rules) = false →
      res.approval_status = some "approved" ∧ res.status_color = some "green" ∧
      res.compliance_score = 100) ∧
    (∀ item ∈ items, ∀ step, checkItem rules item = .ok step →
      ¬ (step.violations.any (fun v => v.violation_type == "restricted_item") = true ∧
         step.violations.any (fun v => v.violation_type == "amount_exceeded") = true)) := by
  have hpa : perform_audit raw (some (Json.obj kvs)) rules = res := by
    simp [perform_audit, hok]
  obtain ⟨items', steps, hg, hm, rfl⟩ := auditStructured_ok hok
  have hgi : getItems (Json.obj kvs) = .ok items := by
    simp only [getItems, hitems]
  have hii : items = items' := by
    rw [hg] at hgi
    injection hgi with h
    exact h.symm
  subst hii
  refine ⟨hpa, ?_, ?_, ?_, ?_⟩
  · intro hR
    exact buildStructuredResult_rejected ((flatMap_restricted_iff hm).mpr hR)
  · intro hR hA
    have hrnil : steps.flatMap ItemStep.restricted_names = [] := by
      by_contra hne
      have hx := (flatMap_restricted_iff hm).mp hne
      rw [hR] at hx
      exact Bool.noConfusion hx
    have hA' : ∃ item ∈ items, itemIsRestrictedB rules item = false ∧
        itemExceedsB rules item = true := by
      obtain ⟨item, hi, hx⟩ := List.any_eq_true.mp hA
      have hfalse : itemIsRestrictedB rules item = false := by
        have := List.any_eq_false.mp hR item hi
        simpa using this
      exact ⟨item, hi, hfalse, hx⟩
    exact buildStructuredResult_warning hrnil ((flatMap_exceeded_iff hm).mpr hA')
  · intro hR hA
    have hrnil : steps.flatMap ItemStep.restricted_names = [] := by
      by_contra hne
      have hx := (flatMap_restricted_iff hm).mp hne
      rw [hR] at hx
      exact Bool.noConfusion hx
    have hanil : steps.flatMap ItemStep.exceeded_names = [] := by
      by_contra hne
      obtain ⟨item, hi, _, hx⟩ := (flatMap_exceeded_iff hm).mp hne
      exact (List.any_eq_false.mp hA item hi) hx
    exact buildStructuredResult_approved hrnil hanil
  · intro item hi step hstep
    exact checkItem_not_both hstep

/-- Witness for C1: the spec's own restricted example — a wine bottle in
the `Alcohol` category under the default rules — is rejected with red
status and score 0. -/
theorem c1_witness :
    ∃ res, auditStructured (Json.obj [("items", Json.arr
        [Json.obj [("name", Json.str "Wine Bottle"), ("category", Json.str "Alcohol"),
                   ("amount", Json.num 500)]])]) default_rules = Except.ok res ∧
      res.approval_status = some "rejected" ∧ res.status_color = some "red" ∧
      res.compliance_score = 0 := by
  refine ⟨_, rfl, ?_⟩
  have hc := c1_ternary_category_decision "w" default_rules
    [("items", Json.arr [Json.obj [("name", Json.str "Wine Bottle"),
      ("category", Json.str "Alcohol"), ("amount", Json.num 500)]])]
    [Json.obj [("name", Json.str "Wine Bottle"), ("category", Json.str "Alcohol"),
      ("amount", Json.num 500)]]
    _ rfl rfl
  exact hc.2.1 (by decide)

end ClearBill
